import Mathlib

/-!
Verification of the Terabox extractor core.

This file gives a shallow embedding, in Lean 4, of the pure logic of the
repository: the VideoInfo result type with its validity invariant and
best-link selection (terabox_extractor.py), the strategy-runner loop of
TeraboxExtractor.extract, the video-file selection helpers, the retry
wrapper of utils.py, and the URL normalisation layer of mirrors.py
(the seven URL_PATTERNS regexes are hand-compiled to executable
backtracking matchers with Python re.search semantics over ASCII input,
and the urlparse and parse_qs fallback is modelled after CPython
urllib.parse). Machine strings are List Char at the core, wrapped in
String at the interface. Theorems at the end settle the stated claims.
-/

namespace TeraboxSpec

/-- Python truthiness based or-chain on strings: a or b returns a when a is
non-empty, else b. -/
def pyStrOr (a b : String) : String := if a = "" then b else a

/-- ASCII lowercase map, the ASCII fragment of Python str.lower. Spelled as
an explicit 26-way case split so that every lemma about it follows by
splitting the cases. -/
def charLower (c : Char) : Char :=
  if c = 'A' then 'a' else if c = 'B' then 'b' else if c = 'C' then 'c'
  else if c = 'D' then 'd' else if c = 'E' then 'e' else if c = 'F' then 'f'
  else if c = 'G' then 'g' else if c = 'H' then 'h' else if c = 'I' then 'i'
  else if c = 'J' then 'j' else if c = 'K' then 'k' else if c = 'L' then 'l'
  else if c = 'M' then 'm' else if c = 'N' then 'n' else if c = 'O' then 'o'
  else if c = 'P' then 'p' else if c = 'Q' then 'q' else if c = 'R' then 'r'
  else if c = 'S' then 's' else if c = 'T' then 't' else if c = 'U' then 'u'
  else if c = 'V' then 'v' else if c = 'W' then 'w' else if c = 'X' then 'x'
  else if c = 'Y' then 'y' else if c = 'Z' then 'z' else c

/-- The character set [a-zA-Z0-9_-]: the capture-group alphabet of every
URL pattern, and the ASCII fragment of the Python regex sets \w and
[\w-] used by the subdomain patterns. -/
def isIdChar (c : Char) : Bool :=
  c == '_' || c == '-'
    || ('0' ≤ c && c ≤ '9')
    || ('a' ≤ c && c ≤ 'z')
    || ('A' ≤ c && c ≤ 'Z')

/-- ASCII whitespace, the Python regex set \s (ASCII fragment): the negation
is the character class [^\s] of the query-parameter URL patterns. -/
def isSpaceChar (c : Char) : Bool :=
  c == ' ' || c == '\t' || c == '\n' || c == '\r'
  || c == '\x0b' || c == '\x0c'

def lowerStr (s : String) : String := String.mk (s.data.map charLower)

end TeraboxSpec

namespace TeraboxSpec

/-- VideoInfo dataclass of terabox_extractor.py (all fields, source
defaults). Dict-valued fields are modelled as association lists. -/
structure VideoInfo where
  title : String := ""
  thumbnail : String := ""
  duration : Int := 0
  size : Int := 0
  size_formatted : String := ""
  resolution : String := ""
  direct_link : String := ""
  download_link : String := ""
  stream_link : String := ""
  m3u8_link : String := ""
  file_id : String := ""
  share_id : String := ""
  uk : String := ""
  sign : String := ""
  timestamp : Int := 0
  quality_options : List (String × String) := []
  raw_data : List (String × String) := []
deriving DecidableEq, Repr

/-- VideoInfo.is_valid: bool(direct_link or stream_link or m3u8_link or
download_link). -/
def VideoInfo.is_valid (v : VideoInfo) : Bool :=
  if pyStrOr (pyStrOr (pyStrOr v.direct_link v.stream_link) v.m3u8_link)
      v.download_link = "" then false else true

/-- VideoInfo.get_best_link: stream_link or direct_link or m3u8_link or
download_link (Python or-chain on strings). -/
def VideoInfo.get_best_link (v : VideoInfo) : String :=
  pyStrOr (pyStrOr (pyStrOr v.stream_link v.direct_link) v.m3u8_link)
    v.download_link

/-- First non-empty string of a list, empty when there is none: the
precedence rule of the specification, written independently of the
or-chain in the code. -/
def first_nonempty : List String → String
  | [] => ""
  | s :: rest => if s = "" then first_nonempty rest else s

end TeraboxSpec

namespace TeraboxSpec

/-- One file entry of a share listing, with the two fields the selection
logic reads: isdir and server_filename. A missing isdir key is any
value other than 0. -/
structure FileEntry where
  isdir : Int := 1
  server_filename : String := ""
deriving DecidableEq, Repr

/-- Exact needle-in-haystack substring test on character lists, the Python
  in operator on strings. -/
def isPre : List Char → List Char → Bool
  | [], _ => true
  | _ :: _, [] => false
  | c :: p, x :: xs => if x = c then isPre p xs else false

def containsSubL (needle : List Char) : List Char → Bool
  | [] => isPre needle []
  | x :: xs => if isPre needle (x :: xs) then true else containsSubL needle xs

/-- Python str.endswith. -/
def strEndsWith (s suffix : String) : Bool :=
  isPre suffix.data.reverse s.data.reverse

/-- Python substring containment needle in s. -/
def containsSubB (needle s : String) : Bool := containsSubL needle.data s.data

/-- Extension list of TeraboxExtractor._find_video_in_list. -/
def video_extensions : List String :=
  [".mp4", ".mkv", ".avi", ".mov", ".wmv", ".flv", ".webm", ".m4v"]

/-- TeraboxExtractor._find_video_in_list: first non-directory entry whose
lowercased name ends with a video extension, else the first
non-directory entry, else the first entry (none only for an empty
list, where Python returns an empty dict). -/
def _find_video_in_list (l : List FileEntry) : Option FileEntry :=
  match l.find? (fun f => f.isdir == 0
      && video_extensions.any (fun ext => strEndsWith (lowerStr f.server_filename) ext)) with
  | some f => some f
  | none =>
    match l.find? (fun f => f.isdir == 0) with
    | some f => some f
    | none => l.head?

/-- Extension list of the inline loop of TeraboxExtractor.method_api_v1
(note: no .m4v, and substring matching). -/
def api_v1_extensions : List String :=
  [".mp4", ".mkv", ".avi", ".mov", ".wmv", ".flv", ".webm"]

/-- The inline file-selection loop of TeraboxExtractor.method_api_v1:
first non-directory entry whose lowercased name CONTAINS one of the
extensions as a substring, else the first entry unconditionally. -/
def method_api_v1_select (l : List FileEntry) : Option FileEntry :=
  match l.find? (fun f => f.isdir == 0
      && api_v1_extensions.any (fun ext => containsSubB ext (lowerStr f.server_filename))) with
  | some f => some f
  | none => l.head?

/-- The selection rule as worded by the claim: first entry whose name ends
in a known video extension (no directory condition), else first
non-directory entry, else first entry. -/
def select_claim_literal (l : List FileEntry) : Option FileEntry :=
  match (l.filter (fun f =>
      video_extensions.any (fun ext => strEndsWith (lowerStr f.server_filename) ext))).head? with
  | some f => some f
  | none =>
    match (l.filter (fun f => f.isdir == 0)).head? with
    | some f => some f
    | none => l.head?

/-- The amended selection rule for _find_video_in_list, written with
filters following the corrected wording: first NON-DIRECTORY entry
whose lowercased name ends in a known extension, else first
non-directory entry, else first entry. -/
def find_video_spec (l : List FileEntry) : Option FileEntry :=
  match (l.filter (fun f => f.isdir == 0
      && video_extensions.any (fun ext => strEndsWith (lowerStr f.server_filename) ext))).head? with
  | some f => some f
  | none =>
    match (l.filter (fun f => f.isdir == 0)).head? with
    | some f => some f
    | none => l.head?

/-- The amended rule for the method_api_v1 inline loop: first
non-directory entry whose lowercased name contains one of its seven
extensions as a substring, else the first entry unconditionally. -/
def api_v1_select_spec (l : List FileEntry) : Option FileEntry :=
  match (l.filter (fun f => f.isdir == 0
      && api_v1_extensions.any (fun ext => containsSubB ext (lowerStr f.server_filename)))).head? with
  | some f => some f
  | none => l.head?

end TeraboxSpec

namespace TeraboxSpec

instance instDecEqExcept {e a : Type} [DecidableEq e] [DecidableEq a] :
    DecidableEq (Except e a) := fun x y =>
  match x, y with
  | .error u, .error v =>
    if h : u = v then isTrue (by rw [h]) else isFalse (fun hh => h (Except.error.inj hh))
  | .error _, .ok _ => isFalse Except.noConfusion
  | .ok _, .error _ => isFalse Except.noConfusion
  | .ok u, .ok v =>
    if h : u = v then isTrue (by rw [h]) else isFalse (fun hh => h (Except.ok.inj hh))

/-- Abstract outcome of invoking one extraction strategy on the request:
it either raises an exception (carrying its message) or returns a
value (a VideoInfo or Python None). -/
inductive StrategyOutcome where
  | raises (msg : String)
  | returns (result : Option VideoInfo)
deriving DecidableEq, Repr

/-- The result a strategy outcome contributes to the runner: some v
exactly when the strategy returned a result that passes is_valid. -/
def validResult : StrategyOutcome → Option VideoInfo
  | .returns (some v) => if v.is_valid then some v else none
  | _ => none

/-- Python f-string rendering of the last_error variable: None prints as
  the word None, an exception prints its message. -/
def pyShowErr : Option String → String
  | none => "None"
  | some e => e

/-- EXTRACTION_METHODS of TeraboxExtractor: the fixed strategy order. -/
def EXTRACTION_METHODS : List String :=
  ["method_api_v1", "method_api_v2", "method_web_scraping",
   "method_cloudscraper", "method_mobile_api", "method_direct_parse",
   "method_alternative_api", "method_browser_emulation"]

/-- The strategy loop of TeraboxExtractor.extract (lines 154 to 174),
on an abstract list of named strategies with their outcomes for this
request. Returns the list of strategy names actually invoked, in
order, together with the final result: the first valid VideoInfo, or
the aggregate error built from the last recorded exception. Invalid
results do not touch last_error; raised exceptions are recorded and
the loop continues. -/
def extract_loop :
    List (String × StrategyOutcome) → Option String →
      List String × Except String VideoInfo
  | [], lastError =>
    ([], .error ("All extraction methods failed. Last error: " ++ pyShowErr lastError))
  | (name, .raises e) :: rest, _ =>
    let r := extract_loop rest (some e)
    (name :: r.1, r.2)
  | (name, .returns (some v)) :: rest, lastError =>
    if v.is_valid then ([name], .ok v)
    else
      let r := extract_loop rest lastError
      (name :: r.1, r.2)
  | (name, .returns none) :: rest, lastError =>
    let r := extract_loop rest lastError
    (name :: r.1, r.2)

/-- The value of the last_error variable after the whole list of
strategies has run without an early return: only raised exceptions
update it. -/
def last_error_after :
    List (String × StrategyOutcome) → Option String → Option String
  | [], le => le
  | (_, .raises e) :: rest, _ => last_error_after rest (some e)
  | (_, .returns _) :: rest, le => last_error_after rest le

end TeraboxSpec

namespace TeraboxSpec

/-- The attempt loop of utils.retry_async, with an explicit trace: f maps
the attempt index to that attempt outcome; the function walks attempt
indices from a given start with the given remaining fuel and the
current last_exception, returning the indices actually attempted and
the final outcome. Sleeping and backoff delays are timing-only and
are not modelled. -/
def retry_go (f : Nat → Except String α) :
    Nat → Nat → Option String → List Nat × Except (Option String) α
  | _, 0, last => ([], .error last)
  | attempt, fuel + 1, _ =>
    match f attempt with
    | .ok a => ([attempt], .ok a)
    | .error e =>
      let r := retry_go f (attempt + 1) fuel (some e)
      (attempt :: r.1, r.2)

/-- utils.retry_async applied to an operation f with a given max_retries:
runs attempts 0, 1, ... and either returns the first success or
re-raises the last exception (error none is the degenerate
max_retries = 0 case where Python would raise None). -/
def retry_async (f : Nat → Except String α) (max_retries : Nat) :
    List Nat × Except (Option String) α :=
  retry_go f 0 max_retries none

end TeraboxSpec

namespace TeraboxSpec

/-- Case-insensitive literal matcher in continuation style: consume the
needle (comparing ASCII-lowercased characters, the IGNORECASE flag of
every URL pattern) from the front of the input and run the
continuation on the remainder. -/
def lit : List Char → List Char → (List Char → Option (List Char)) → Option (List Char)
  | [], cs, k => k cs
  | _ :: _, [], _ => none
  | c :: p, x :: xs, k => if charLower x = charLower c then lit p xs k else none

/-- Greedy optional literal with backtracking: try taking the literal and
running the continuation; on failure run the continuation in place. -/
def optLitThen (p : List Char) (cs : List Char)
    (k : List Char → Option (List Char)) : Option (List Char) :=
  match lit p cs k with
  | some v => some v
  | none => k cs

/-- Ordered alternation of literals, each followed by the continuation,
with backtracking into later alternatives. -/
def litsThen : List (List Char) → List Char → (List Char → Option (List Char)) → Option (List Char)
  | [], _, _ => none
  | a :: rest, cs, k =>
    match lit a cs k with
    | some v => some v
    | none => litsThen rest cs k

/-- The optional subdomain group of the URL patterns, the regex
piece ( [\w-]+ followed by a literal dot )?. A shorter-than-maximal
run of word characters can never be followed by the dot, so the
greedy engine semantics reduce to: maximal run, then the dot, with
fallback to skipping the group. -/
def subdomThen (cs : List Char) (k : List Char → Option (List Char)) : Option (List Char) :=
  let run := cs.takeWhile isIdChar
  if run.isEmpty then k cs
  else
    match lit (".".data) (cs.dropWhile isIdChar) k with
    | some v => some v
    | none => k cs

/-- Final capture group ([a-zA-Z0-9_-]+) at the end of a pattern: the
greedy maximal run, which must be non-empty. -/
def capIdPlus (cs : List Char) : Option (List Char) :=
  let run := cs.takeWhile isIdChar
  if run.isEmpty then none else some run

/-- Final capture group ([a-zA-Z0-9_-]{8,}) at the end of a pattern. -/
def capId8 (cs : List Char) : Option (List Char) :=
  let run := cs.takeWhile isIdChar
  if run.length < 8 then none else some run

/-- The leading https?:// of every URL pattern, greedy on the optional s. -/
def schemeThen (cs : List Char) (k : List Char → Option (List Char)) : Option (List Char) :=
  lit ("http".data) cs (fun r =>
    match lit ("s://".data) r k with
    | some v => some v
    | none => lit ("://".data) r k)

/-- Domain-name alternation followed by a dot and a TLD alternation, with
full backtracking across both alternations, the regex piece
(name1|name2|...) dot (tld1|tld2|...). -/
def nameDotTldThen : List (List Char) → List (List Char) → List Char →
    (List Char → Option (List Char)) → Option (List Char)
  | [], _, _, _ => none
  | n :: rest, tlds, cs, k =>
    match lit n cs (fun r => lit (".".data) r (fun r2 => litsThen tlds r2 k)) with
    | some v => some v
    | none => nameDotTldThen rest tlds cs k

/-- Rightmost-first scan for the piece [^\s]+[?&]param= capture, the
greedy backtracking of the query-parameter patterns: the flag records
whether at least one non-space character has been consumed since the
scheme. -/
def ampScan (param : List Char) (seen1 : Bool) : List Char → Option (List Char)
  | [] => none
  | x :: xs =>
    match (if isSpaceChar x then none else ampScan param true xs) with
    | some v => some v
    | none =>
      if (x == '?' || x == '&') && seen1 then lit param xs capIdPlus
      else none

/-- Domain-name alternation of URL pattern 1, in source order. -/
def p1Names : List (List Char) :=
  ["terabox", "teraboxapp", "1024tera", "dubox", "mirrobox", "nephobox",
   "4funbox", "freeterabox", "teraboxshare", "momerybox", "tibibox",
   "xhobox", "gcloud", "teraboxlink", "teraboxlinks", "terasharelink",
   "terafileshare", "1024terabox", "happybox", "boxtera", "teracloud",
   "cloudtera"].map String.data

/-- TLD alternation of URL pattern 1, in source order. -/
def p1Tlds : List (List Char) :=
  ["com", "app", "live", "tech", "fun", "site", "me", "net", "org",
   "link"].map String.data

def p2Names : List (List Char) :=
  ["terabox", "teraboxapp", "1024tera"].map String.data

def p2Tlds : List (List Char) := ["com", "app"].map String.data

def p3Names : List (List Char) :=
  ["terabox", "teraboxapp", "1024tera", "dubox"].map String.data

/-- URL pattern 1 at a fixed start position: standard share links
https?://(www.)?([\w-]+.)?(name).(tld)/s/(id). -/
def matchP1At (cs : List Char) : Option (List Char) :=
  schemeThen cs (fun r1 =>
    optLitThen ("www.".data) r1 (fun r2 =>
      subdomThen r2 (fun r3 =>
        nameDotTldThen p1Names p1Tlds r3 (fun r4 =>
          lit ("/s/".data) r4 capIdPlus))))

/-- URL pattern 2 at a position: short links without /s/, id of length
at least 8 directly after the domain. -/
def matchP2At (cs : List Char) : Option (List Char) :=
  schemeThen cs (fun r1 =>
    optLitThen ("www.".data) r1 (fun r2 =>
      subdomThen r2 (fun r3 =>
        nameDotTldThen p2Names p2Tlds r3 (fun r4 =>
          lit ("/".data) r4 capId8))))

/-- URL pattern 3 at a position: web or wap share links with a surl query
parameter. -/
def matchP3At (cs : List Char) : Option (List Char) :=
  schemeThen cs (fun r1 =>
    optLitThen ("www.".data) r1 (fun r2 =>
      subdomThen r2 (fun r3 =>
        nameDotTldThen p3Names p2Tlds r3 (fun r4 =>
          lit ("/".data) r4 (fun r5 =>
            litsThen [("web".data), ("wap".data)] r5 (fun r6 =>
              lit ("/share/".data) r6 (fun r7 =>
                litsThen [("init".data), ("link".data), ("filelist".data)] r7 (fun r8 =>
                  lit ("?surl=".data) r8 capIdPlus))))))))

/-- URL pattern 4 at a position: direct file links /file/(id). -/
def matchP4At (cs : List Char) : Option (List Char) :=
  schemeThen cs (fun r1 =>
    subdomThen r1 (fun r2 =>
      nameDotTldThen p2Names p2Tlds r2 (fun r3 =>
        lit ("/file/".data) r3 capIdPlus)))

/-- URL pattern 5 at a position: a shareid query parameter anywhere after
the scheme. -/
def matchP5At (cs : List Char) : Option (List Char) :=
  schemeThen cs (fun r => ampScan ("shareid=".data) false r)

/-- URL pattern 6 at a position: a surl query parameter anywhere after
the scheme. -/
def matchP6At (cs : List Char) : Option (List Char) :=
  schemeThen cs (fun r => ampScan ("surl=".data) false r)

/-- URL pattern 7 at a position: the teraboxlinks.site specific pattern
with an optional s/ path prefix. -/
def matchP7At (cs : List Char) : Option (List Char) :=
  schemeThen cs (fun r1 =>
    optLitThen ("www.".data) r1 (fun r2 =>
      lit ("teraboxlinks.site/".data) r2 (fun r3 =>
        optLitThen ("s/".data) r3 capIdPlus)))

/-- Python re.search: try the matcher at every start position from the
left, including the end-of-string position. -/
def searchWith (m : List Char → Option (List Char)) : List Char → Option (List Char)
  | [] => m []
  | c :: t =>
    match m (c :: t) with
    | some r => some r
    | none => searchWith m t

/-- The ordered URL_PATTERNS list of TeraboxMirrors, as position
matchers. -/
def URL_PATTERNS : List (List Char → Option (List Char)) :=
  [matchP1At, matchP2At, matchP3At, matchP4At, matchP5At, matchP6At,
   matchP7At]

/-- The pattern loop of extract_share_id: first pattern whose search
yields a captured group of length at least 4 wins; a shorter capture
moves on to the next pattern. -/
def patternLoop : List (List Char → Option (List Char)) → List Char → Option (List Char)
  | [], _ => none
  | p :: ps, cs =>
    match searchWith p cs with
    | some cap => if 4 ≤ cap.length then some cap else patternLoop ps cs
    | none => patternLoop ps cs

end TeraboxSpec

namespace TeraboxSpec

/-- Scheme characters of CPython urllib.parse: letters, digits, plus,
minus, dot. -/
def isSchemeChar (c : Char) : Bool :=
  c == '+' || c == '-' || c == '.'
    || ('0' ≤ c && c ≤ '9')
    || ('a' ≤ c && c ≤ 'z')
    || ('A' ≤ c && c ≤ 'Z')

/-- Split a character list at the first occurrence of a separator: the
part before it, and the part after it when the separator occurs. -/
def splitFirst (sep : Char) : List Char → List Char × Option (List Char)
  | [] => ([], none)
  | x :: xs =>
    if x = sep then ([], some xs)
    else
      let r := splitFirst sep xs
      (x :: r.1, r.2)

/-- Characters ending the netloc component: slash, question mark, hash. -/
def isNetlocEnd (c : Char) : Bool := c == '/' || c == '?' || c == '#'

/-- CPython urlsplit, reduced to the two components the fallback of
extract_share_id reads: the path and the query. Scheme recognition
follows urllib.parse (a leading ASCII letter then scheme characters
up to a colon); a netloc is read after a leading double slash; the
fragment is split off at the first hash before the query is split at
the first question mark. Returns none exactly where urlsplit raises
ValueError on an unbalanced bracket in the netloc, which the source
catches and turns into a None result. Parameter splitting on
semicolons (urlparse params) and non-ASCII lowering are outside the
modelled fragment. -/
def urlsplitModel (url : List Char) : Option (List Char × List Char) :=
  let rest :=
    match splitFirst ':' url with
    | (before, some after) =>
      if before.isEmpty then url
      else if (match url.head? with
          | some c => ('a' ≤ c && c ≤ 'z') || ('A' ≤ c && c ≤ 'Z')
          | none => false) && before.all isSchemeChar then after
      else url
    | (_, none) => url
  let netlocRest :=
    match rest with
    | '/' :: '/' :: r => (r.takeWhile (fun c => !isNetlocEnd c), r.dropWhile (fun c => !isNetlocEnd c))
    | _ => ([], rest)
  let netloc := netlocRest.1
  if (netloc.contains '[' && !netloc.contains ']')
      || (netloc.contains ']' && !netloc.contains '[') then none
  else
    let pq := (splitFirst '#' netlocRest.2).1
    let pathQ := splitFirst '?' pq
    some (pathQ.1, match pathQ.2 with | some q => q | none => [])

/-- Hexadecimal digit value. -/
def hexVal (c : Char) : Option Nat :=
  if 'A' ≤ c && c ≤ 'F' then some (c.toNat - 55)
  else if 'a' ≤ c && c ≤ 'f' then some (c.toNat - 87)
  else if '0' ≤ c && c ≤ '9' then some (c.toNat - 48)
  else none

/-- Percent-decoding of Python urllib.parse.unquote, modelled per byte
(multi-byte UTF-8 sequences decode byte by byte here; the inputs of
interest are ASCII). An invalid escape is kept literally. -/
def percentDecode : List Char → List Char
  | '%' :: a :: b :: rest =>
    (match hexVal a, hexVal b with
     | some ha, some hb => Char.ofNat (16 * ha + hb) :: percentDecode rest
     | _, _ => '%' :: percentDecode (a :: b :: rest))
  | c :: rest => c :: percentDecode rest
  | [] => []

/-- Python unquote_plus as used by parse_qsl: plus becomes space, then
percent-decoding. -/
def unquotePlus (l : List Char) : List Char :=
  percentDecode (l.map (fun c => if c = '+' then ' ' else c))

/-- Python str.split on one character: n separators give n plus one
fields, the empty string gives one empty field. -/
def splitOnChar (sep : Char) : List Char → List (List Char)
  | [] => [[]]
  | x :: xs =>
    if x = sep then [] :: splitOnChar sep xs
    else
      match splitOnChar sep xs with
      | [] => [[x]]
      | h :: t => (x :: h) :: t

/-- CPython parse_qsl with default options: split the query on
ampersands, skip empty chunks, skip chunks without an equals sign,
skip empty values, unquote names and values. -/
def parse_qsl (query : List Char) : List (List Char × List Char) :=
  (splitOnChar '&' query).filterMap (fun pair =>
    if pair.isEmpty then none
    else
      match splitFirst '=' pair with
      | (_, none) => none
      | (n, some v) =>
        if v.isEmpty then none
        else some (unquotePlus n, unquotePlus v))

/-- The parameter-name priority list of the extract_share_id fallback. -/
def param_names : List (List Char) :=
  ["surl", "shareid", "share_id", "id", "fid", "s"].map String.data

/-- params[param][0] of the fallback: the first value carried by the
given name, in query order. -/
def lookupParam (pairs : List (List Char × List Char)) (nm : List Char) :
    Option (List Char) :=
  match pairs.find? (fun p => p.1 == nm) with
  | some p => some p.2
  | none => none

/-- Fallback stage (a): scan the fixed parameter-name priority list
against the parsed query. -/
def fallbackParams (cs : List Char) : Option (List Char) :=
  match urlsplitModel cs with
  | none => none
  | some (_, query) =>
    param_names.findSome? (fun nm => lookupParam (parse_qsl query) nm)

/-- Python str.strip with a slash argument: drop leading and trailing
slashes. -/
def stripSlashes (l : List Char) : List Char :=
  ((l.dropWhile (fun c => c == '/')).reverse.dropWhile (fun c => c == '/')).reverse

/-- path_parts of the fallback: the parsed path, stripped of outer
slashes and split on slashes. -/
def pathPartsOf (cs : List Char) : Option (List (List Char)) :=
  match urlsplitModel cs with
  | none => none
  | some (path, _) => some (splitOnChar '/' (stripSlashes path))

/-- Fallback stage (b): a literal s path segment followed by another
segment; when the s segment is last, fall through. -/
def fallbackSSeg (cs : List Char) : Option (List Char) :=
  match pathPartsOf cs with
  | none => none
  | some parts =>
    if parts.contains ("s".data) then
      let i := parts.indexOf ("s".data)
      if i + 1 < parts.length then parts.get? (i + 1) else none
    else none

/-- Python re.match of the anchored pattern [a-zA-Z0-9_-]+ with a final
dollar, which also accepts one trailing newline. -/
def pyIdFullMatch (p : List Char) : Bool :=
  let core := if p.getLast? == some '\n' then p.dropLast else p
  !core.isEmpty && core.all isIdChar

/-- Fallback stage (c): scan path segments in reverse for the first
segment of length at least 6 made of identifier characters. -/
def fallbackRevScan (cs : List Char) : Option (List Char) :=
  match pathPartsOf cs with
  | none => none
  | some parts =>
    parts.reverse.find? (fun p => decide (6 ≤ p.length) && pyIdFullMatch p)

/-- TeraboxMirrors.extract_share_id on character lists: empty input gives
none; then the ordered pattern loop with its length-4 bar; then the
try-block fallback stages in order (query parameters, s segment,
reverse scan), where a urlsplit ValueError yields none through the
bare except. -/
def extractShareIdCore (cs : List Char) : Option (List Char) :=
  if cs.isEmpty then none
  else
    match patternLoop URL_PATTERNS cs with
    | some sid => some sid
    | none =>
      match fallbackParams cs with
      | some v => some v
      | none =>
        match fallbackSSeg cs with
        | some v => some v
        | none => fallbackRevScan cs

end TeraboxSpec

namespace TeraboxSpec

namespace TeraboxMirrors

/-- TeraboxMirrors.extract_share_id. -/
def extract_share_id (url : String) : Option String :=
  (extractShareIdCore url.data).map fun l => String.mk l

/-- TeraboxMirrors.DOMAIN_MAPPING, in source (insertion) order. -/
def DOMAIN_MAPPING : List (String × String) :=
  [("mirrobox.com", "terabox.com"), ("nephobox.com", "terabox.com"),
   ("4funbox.com", "terabox.com"), ("freeterabox.com", "terabox.com"),
   ("momerybox.com", "terabox.com"), ("tibibox.com", "terabox.com"),
   ("xhobox.com", "terabox.com"), ("1024terabox.com", "1024tera.com"),
   ("teraboxlinks.site", "terabox.com"), ("teraboxlink.com", "terabox.com"),
   ("terasharelink.com", "terabox.com"), ("teraboxshare.com", "terabox.com"),
   ("terafileshare.com", "terabox.com")]

/-- TeraboxMirrors.PRIMARY_DOMAINS. -/
def PRIMARY_DOMAINS : List String :=
  ["terabox.com", "teraboxapp.com", "1024tera.com", "terabox.app",
   "terabox.tech", "terabox.fun"]

/-- TeraboxMirrors.get_api_domain on character lists: the alias table
first, then the primary domains, substring matching against the
lowercased URL, defaulting to terabox.com. -/
def apiDomainCore (cs : List Char) : String :=
  let low := cs.map charLower
  match DOMAIN_MAPPING.find? (fun kv => containsSubL kv.1.data low) with
  | some kv => kv.2
  | none =>
    match PRIMARY_DOMAINS.find? (fun d => containsSubL d.data low) with
    | some d => d
    | none => "terabox.com"

/-- TeraboxMirrors.get_api_domain. -/
def get_api_domain (url : String) : String := apiDomainCore url.data

/-- TeraboxMirrors.normalize_url: rebuild the canonical form when a
truthy share id is extracted, else return the input unchanged. -/
def normalize_url (url : String) : String :=
  match extract_share_id url with
  | some sid =>
    if sid = "" then url
    else "https://www." ++ get_api_domain url ++ "/s/" ++ sid
  | none => url

/-- TeraboxMirrors.OFFICIAL_MIRRORS. -/
def OFFICIAL_MIRRORS : List String := ["gcloud.live", "dubox.com", "pan.baidu.com"]

/-- TeraboxMirrors.LINK_SITES. -/
def LINK_SITES : List String :=
  ["teraboxlink.com", "teraboxlinks.site", "terasharelink.com", "teralink.me",
   "teraboxshare.com", "terafileshare.com", "teraboxdownload.com", "teradl.com",
   "tera-link.com", "terabox.link", "teraboxurl.com"]

/-- TeraboxMirrors.MIRROR_DOMAINS. -/
def MIRROR_DOMAINS : List String :=
  ["mirrobox.com", "nephobox.com", "4funbox.com", "1024terabox.com",
   "freeterabox.com", "momerybox.com", "tibibox.com", "xhobox.com",
   "happybox.org", "boxtera.net", "teracloud.me", "cloudtera.net"]

/-- TeraboxMirrors.ALTERNATIVE_DOMAINS. -/
def ALTERNATIVE_DOMAINS : List String :=
  ["terabox.co", "terabox.net", "terabox.org", "terabox.io", "terabox.cloud",
   "terabox.me", "teraboxcdn.com", "terabox-cdn.com", "tera-box.com", "tera.box"]

/-- TeraboxMirrors.API_DOMAINS. -/
def API_DOMAINS : List String :=
  ["d.terabox.com", "dl.teraboxapp.com", "data.teraboxapp.com",
   "www.terabox.com", "www.teraboxapp.com", "www.1024tera.com",
   "api.terabox.com", "m.terabox.com", "pan.terabox.com", "c.terabox.com",
   "d2.terabox.com", "d3.terabox.com"]

/-- TeraboxMirrors.THIRD_PARTY_EXTRACTORS. -/
def THIRD_PARTY_EXTRACTORS : List String :=
  ["teradownloader.com", "terabox.hnn.workers.dev", "teraboxvideodownloader.com",
   "savetera.com", "terasave.com", "tera.instavideosave.com",
   "teraboxplayer.com", "terabox-dl.com"]

/-- TeraboxMirrors.get_all_domains: the source builds a set union; only
membership matters downstream, modelled as concatenation. -/
def get_all_domains : List String :=
  PRIMARY_DOMAINS ++ OFFICIAL_MIRRORS ++ LINK_SITES ++ MIRROR_DOMAINS
    ++ ALTERNATIVE_DOMAINS ++ API_DOMAINS ++ THIRD_PARTY_EXTRACTORS

/-- One SUBDOMAIN_PATTERNS regex at a position: a non-empty run of word
characters followed by the literal dotted suffix. -/
def subdomAt (suffix : List Char) (cs : List Char) : Option (List Char) :=
  let run := cs.takeWhile isIdChar
  if run.isEmpty then none
  else lit suffix (cs.dropWhile isIdChar) (fun r => some r)

/-- The dotted suffixes of TeraboxMirrors.SUBDOMAIN_PATTERNS. -/
def subdomSuffixes : List String :=
  [".terabox.com", ".teraboxapp.com", ".1024tera.com", ".dubox.com",
   ".gcloud.live", ".teraboxlinks.site"]

def hasSubdomMatch (low : List Char) : Bool :=
  subdomSuffixes.any (fun sfx => (searchWith (subdomAt sfx.data) low).isSome)

/-- Head of the remaining input is a non-space character. -/
def nonspaceHead (cs : List Char) : Bool :=
  match cs with
  | [] => false
  | x :: _ => !isSpaceChar x

/-- The inline case-sensitive re.search of is_terabox_url for
https?:// followed by at least one non-space character. -/
def hasHttpUrl (cs : List Char) : Bool :=
  (searchWith (fun suf =>
    if isPre ("https://".data) suf then
      (if nonspaceHead (suf.drop 8) then some [] else none)
    else if isPre ("http://".data) suf then
      (if nonspaceHead (suf.drop 7) then some [] else none)
    else none) cs).isSome

/-- The common-indicator substrings of is_terabox_url. -/
def terabox_indicators : List String :=
  ["/s/", "surl=", "shareid=", "terabox", "tera", "dubox"]

/-- TeraboxMirrors.is_terabox_url: any catalogued domain as a substring
of the lowercased URL, else a subdomain-pattern match, else an
indicator substring combined with an http(s) URL shape. -/
def is_terabox_url (url : String) : Bool :=
  if url.data.isEmpty then false
  else
    let low := url.data.map charLower
    if get_all_domains.any (fun d => containsSubL d.data low) then true
    else if hasSubdomMatch low then true
    else if terabox_indicators.any (fun ind => containsSubL ind.data low)
        && hasHttpUrl url.data then true
    else false

end TeraboxMirrors

/-- The pre-loop steps of TeraboxExtractor.extract (lines 141 to 152, on
a cache miss): reject a non-Terabox URL, normalise, extract the share
id, reject a falsy (missing or empty) share id, and otherwise proceed
with the normalised URL and the share id exactly as extracted. -/
def extract_prelude (url : String) : Except String (String × String) :=
  if TeraboxMirrors.is_terabox_url url then
    match TeraboxMirrors.extract_share_id url with
    | some sid =>
      if sid = "" then .error ("Could not extract share ID from URL: " ++ url)
      else .ok (TeraboxMirrors.normalize_url url, sid)
    | none => .error ("Could not extract share ID from URL: " ++ url)
  else .error ("Not a valid Terabox URL: " ++ url)

end TeraboxSpec

namespace TeraboxSpec

/-- A character other than the dot: the key separator present in every
domain needle but absent from extracted identifier characters. -/
def dotfree (c : Char) : Bool := !(c == '.')

def tailsL : List Char → List (List Char)
  | [] => [[]]
  | x :: xs => (x :: xs) :: tailsL xs

/-- Boundary check: can some non-trivial prefix of the needle sit as a
suffix of the fixed part while the remaining needle characters are
all dot-free (and hence could sit inside the identifier tail). -/
def boundarySplit (needle a : List Char) : Bool :=
  (tailsL a).any (fun s =>
    decide (s.length < needle.length) && isPre s needle
      && (needle.drop s.length).all dotfree)

theorem find?_eq_filter_head? (p : α → Bool) (l : List α) :
    l.find? p = (l.filter p).head? := by
  induction l with
  | nil => rfl
  | cons x xs ih =>
    by_cases h : p x = true
    · rw [List.find?_cons_of_pos _ h, List.filter_cons_of_pos h, List.head?_cons]
    · rw [List.find?_cons_of_neg _ h, List.filter_cons_of_neg h, ih]

/-- Claim C2: VideoInfo.is_valid is true exactly when one of the four
link fields is non-empty, and a freshly constructed VideoInfo with
all default field values is invalid. -/
theorem claim_C2_is_valid_iff :
    (∀ v : VideoInfo, v.is_valid = true ↔
      (v.direct_link ≠ "" ∨ v.download_link ≠ "" ∨ v.stream_link ≠ ""
        ∨ v.m3u8_link ≠ ""))
    ∧ VideoInfo.is_valid {} = false := by
  constructor
  · intro v
    simp only [VideoInfo.is_valid, pyStrOr]
    split_ifs <;> simp_all
  · rfl

/-- Claim C3: get_best_link picks the first non-empty link in the fixed
precedence order stream, direct, m3u8, download; in particular it
returns stream_link whenever both stream_link and direct_link are
non-empty. -/
theorem claim_C3_best_link_precedence :
    (∀ v : VideoInfo, v.get_best_link =
      first_nonempty [v.stream_link, v.direct_link, v.m3u8_link, v.download_link])
    ∧ (∀ v : VideoInfo, v.stream_link ≠ "" → v.direct_link ≠ "" →
      v.get_best_link = v.stream_link) := by
  constructor
  · intro v
    simp only [VideoInfo.get_best_link, pyStrOr, first_nonempty]
    split_ifs <;> simp_all
  · intro v h1 _
    simp [VideoInfo.get_best_link, pyStrOr, h1]

theorem claim_C3_witness :
    VideoInfo.get_best_link
      { stream_link := "http://s/stream.m3u8", direct_link := "http://d/file.mp4" } =
      "http://s/stream.m3u8" :=
  claim_C3_best_link_precedence.2
    { stream_link := "http://s/stream.m3u8", direct_link := "http://d/file.mp4" }
    (by decide) (by decide)

/-- Claim C10: get_best_link returns a non-empty string exactly when
is_valid holds; on an invalid result it returns the empty string. -/
theorem claim_C10_best_link_nonempty_iff_valid :
    ∀ v : VideoInfo, v.get_best_link ≠ "" ↔ v.is_valid = true := by
  intro v
  simp only [VideoInfo.get_best_link, VideoInfo.is_valid, pyStrOr]
  split_ifs <;> simp_all

/-- Claim C8 counterexample: method_api_v1 selects by substring
containment (video.mp4.txt wins over clip.mp4) while
_find_video_in_list selects by endswith, so the two strategies do
not apply one common rule; and _find_video_in_list skips a DIRECTORY
named folder.mp4 while the claim wording (first entry whose name ends
in a video extension) would select it. -/
theorem claim_C8_counterexample :
    method_api_v1_select
      [{ isdir := 0, server_filename := "video.mp4.txt" },
       { isdir := 0, server_filename := "clip.mp4" }] =
      some { isdir := 0, server_filename := "video.mp4.txt" }
    ∧ _find_video_in_list
      [{ isdir := 0, server_filename := "video.mp4.txt" },
       { isdir := 0, server_filename := "clip.mp4" }] =
      some { isdir := 0, server_filename := "clip.mp4" }
    ∧ _find_video_in_list
      [{ isdir := 1, server_filename := "folder.mp4" },
       { isdir := 0, server_filename := "notes.txt" }] =
      some { isdir := 0, server_filename := "notes.txt" }
    ∧ select_claim_literal
      [{ isdir := 1, server_filename := "folder.mp4" },
       { isdir := 0, server_filename := "notes.txt" }] =
      some { isdir := 1, server_filename := "folder.mp4" } := by
  decide

/-- Claim C8 amended: _find_video_in_list returns the first
non-directory entry whose lowercased name ends in one of its eight
extensions, else the first non-directory entry, else the first
entry; method_api_v1 instead uses its own inline rule, the first
non-directory entry whose lowercased name contains one of its seven
extensions as a substring, else the first entry unconditionally. -/
theorem claim_C8_selection_rules :
    (∀ l : List FileEntry, _find_video_in_list l = find_video_spec l)
    ∧ (∀ l : List FileEntry, method_api_v1_select l = api_v1_select_spec l) := by
  constructor
  · intro l
    simp only [_find_video_in_list, find_video_spec, find?_eq_filter_head?]
  · intro l
    simp only [method_api_v1_select, api_v1_select_spec, find?_eq_filter_head?]

end TeraboxSpec

namespace TeraboxSpec

/-- Claim C1: the strategy runner invokes strategies strictly in list
order; as soon as one yields a result passing the validity invariant
it returns that result at once, the invocation trace being exactly
the names up to and including the succeeding strategy, so no later
strategy is invoked. -/
theorem claim_C1_runner_first_valid
    (pre post : List (String × StrategyOutcome)) (name : String)
    (o : StrategyOutcome) (v : VideoInfo) (le : Option String)
    (hpre : ∀ p ∈ pre, validResult p.2 = none)
    (hv : validResult o = some v) :
    extract_loop (pre ++ (name, o) :: post) le =
      (pre.map Prod.fst ++ [name], .ok v) := by
  revert hpre
  induction pre generalizing le with
  | nil =>
    intro _
    cases o with
    | raises e => simp [validResult] at hv
    | returns r =>
      cases r with
      | none => simp [validResult] at hv
      | some w =>
        by_cases hval : w.is_valid
        · have hw : w = v := by simpa [validResult, hval] using hv
          subst hw
          simp [extract_loop, hval]
        · simp [validResult, hval] at hv
  | cons hd tl ih =>
    intro hpre
    obtain ⟨nm, oo⟩ := hd
    have hhd : validResult oo = none := hpre (nm, oo) (List.mem_cons_self _ _)
    have htl : ∀ p ∈ tl, validResult p.2 = none :=
      fun p hp => hpre p (List.mem_cons_of_mem _ hp)
    cases oo with
    | raises e =>
      simp [extract_loop, ih (some e) htl]
    | returns r =>
      cases r with
      | none => simp [extract_loop, ih le htl]
      | some w =>
        have hval : w.is_valid = false := by
          cases hb : w.is_valid
          · rfl
          · simp [validResult, hb] at hhd
        simp [extract_loop, hval, ih le htl]

theorem claim_C1_witness :
    extract_loop
      [("method_api_v1", .raises ("API returned status 403")),
       ("method_api_v2", .returns (some {})),
       ("method_web_scraping", .returns (some { direct_link := "http://x/video.mp4" })),
       ("method_cloudscraper", .raises ("never reached")),
       ("method_mobile_api", .raises ("never reached")),
       ("method_direct_parse", .raises ("never reached")),
       ("method_alternative_api", .raises ("never reached")),
       ("method_browser_emulation", .raises ("never reached"))] none =
      (["method_api_v1", "method_api_v2", "method_web_scraping"],
       .ok { direct_link := "http://x/video.mp4" }) := by
  have h := claim_C1_runner_first_valid
    [("method_api_v1", .raises ("API returned status 403")),
     ("method_api_v2", .returns (some {}))]
    [("method_cloudscraper", .raises ("never reached")),
     ("method_mobile_api", .raises ("never reached")),
     ("method_direct_parse", .raises ("never reached")),
     ("method_alternative_api", .raises ("never reached")),
     ("method_browser_emulation", .raises ("never reached"))]
    ("method_web_scraping")
    (.returns (some { direct_link := "http://x/video.mp4" }))
    { direct_link := "http://x/video.mp4" } none (by decide) (by decide)
  exact h.trans (by decide)

theorem last_error_after_of_getLast :
    ∀ (ss : List (String × StrategyOutcome)) (le : Option String)
      (nm : String) (e : String),
      ss.getLast? = some (nm, .raises e) → last_error_after ss le = some e := by
  intro ss
  induction ss with
  | nil => intro le nm e h; cases h
  | cons hd tl ih =>
    intro le nm e h
    cases tl with
    | nil =>
      simp only [List.getLast?_singleton, Option.some.injEq] at h
      subst h
      simp [last_error_after]
    | cons hd2 tl2 =>
      rw [List.getLast?_cons_cons] at h
      obtain ⟨n1, o1⟩ := hd
      cases o1 with
      | raises e1 => exact ih (some e1) nm e h
      | returns r => exact ih le nm e h

/-- Claim C4: when no strategy produces a valid result, every strategy is
still invoked (no failure propagates out of the loop), and the runner
ends with the single aggregate error naming the last recorded
exception; raised exceptions update the record, invalid results leave
it unchanged, and when the final strategy raises, the aggregate error
names exactly that error. -/
theorem claim_C4_failure_isolation_and_aggregation
    (ss : List (String × StrategyOutcome)) (le : Option String)
    (h : ∀ p ∈ ss, validResult p.2 = none) :
    extract_loop ss le =
      (ss.map Prod.fst,
       .error ("All extraction methods failed. Last error: "
         ++ pyShowErr (last_error_after ss le)))
    ∧ (∀ nm e, ss.getLast? = some (nm, .raises e) →
      last_error_after ss le = some e) := by
  refine ⟨?_, fun nm e hl => last_error_after_of_getLast ss le nm e hl⟩
  revert h
  induction ss generalizing le with
  | nil => intro _; simp [extract_loop, last_error_after]
  | cons hd tl ih =>
    intro h
    obtain ⟨nm, oo⟩ := hd
    have hhd : validResult oo = none := h (nm, oo) (List.mem_cons_self _ _)
    have htl : ∀ p ∈ tl, validResult p.2 = none :=
      fun p hp => h p (List.mem_cons_of_mem _ hp)
    cases oo with
    | raises e => simp [extract_loop, last_error_after, ih (some e) htl]
    | returns r =>
      cases r with
      | none => simp [extract_loop, last_error_after, ih le htl]
      | some w =>
        have hval : w.is_valid = false := by
          cases hb : w.is_valid
          · rfl
          · simp [validResult, hb] at hhd
        simp [extract_loop, last_error_after, hval, ih le htl]

theorem claim_C4_witness :
    extract_loop
      [("method_api_v1", .raises ("e1")), ("method_api_v2", .raises ("e2")),
       ("method_web_scraping", .raises ("e3")), ("method_cloudscraper", .raises ("e4")),
       ("method_mobile_api", .raises ("e5")), ("method_direct_parse", .raises ("e6")),
       ("method_alternative_api", .raises ("e7")), ("method_browser_emulation", .raises ("e8"))]
      none =
      (EXTRACTION_METHODS,
       .error ("All extraction methods failed. Last error: e8")) := by
  have h := claim_C4_failure_isolation_and_aggregation
    [("method_api_v1", .raises ("e1")), ("method_api_v2", .raises ("e2")),
     ("method_web_scraping", .raises ("e3")), ("method_cloudscraper", .raises ("e4")),
     ("method_mobile_api", .raises ("e5")), ("method_direct_parse", .raises ("e6")),
     ("method_alternative_api", .raises ("e7")), ("method_browser_emulation", .raises ("e8"))]
    none (by decide)
  exact h.1.trans (by decide)

end TeraboxSpec

namespace TeraboxSpec

theorem retry_go_all_error (f : Nat → Except String α) :
    ∀ (fuel start : Nat) (last : Option String) (e : String), 0 < fuel →
      (∀ i, start ≤ i → i < start + fuel → ∃ e', f i = .error e') →
      f (start + fuel - 1) = .error e →
      retry_go f start fuel last = (List.range' start fuel, .error (some e)) := by
  intro fuel
  induction fuel with
  | zero => intro start last e h; exact absurd h (by omega)
  | succ n ih =>
    intro start last e _ hall hlast
    obtain ⟨e0, he0⟩ := hall start (le_refl _) (by omega)
    by_cases hn : n = 0
    · subst hn
      have he : e0 = e := by
        rw [show start + 1 - 1 = start from by omega, he0] at hlast
        exact Except.error.inj hlast
      subst he
      simp [retry_go, he0, List.range']
    · have ih' := ih (start + 1) (some e0) e (Nat.pos_of_ne_zero hn)
        (fun i h1 h2 => hall i (by omega) (by omega))
        (by rw [show start + 1 + n - 1 = start + (n + 1) - 1 from by omega]; exact hlast)
      simp [retry_go, he0, ih', List.range'_succ]

theorem retry_go_first_ok (f : Nat → Except String α) :
    ∀ (fuel start : Nat) (last : Option String) (k : Nat) (a : α),
      start ≤ k → k < start + fuel →
      (∀ i, start ≤ i → i < k → ∃ e', f i = .error e') →
      f k = .ok a →
      retry_go f start fuel last = (List.range' start (k - start + 1), .ok a) := by
  intro fuel
  induction fuel with
  | zero => intro start last k a h1 h2; exact absurd h2 (by omega)
  | succ n ih =>
    intro start last k a hsk hkf hfail hok
    by_cases hks : k = start
    · subst hks
      simp [retry_go, hok, show k - k + 1 = 1 from by omega, List.range']
    · have hlt : start < k := by omega
      obtain ⟨e0, he0⟩ := hfail start (le_refl _) hlt
      have ih' := ih (start + 1) (some e0) k a (by omega) (by omega)
        (fun i hi1 hi2 => hfail i (by omega) hi2) hok
      rw [show k - start + 1 = (k - (start + 1) + 1) + 1 from by omega,
        List.range'_succ]
      simp [retry_go, he0, ih']

/-- Claim C9: with max_retries at least 1, when every attempt raises, the
retry wrapper performs exactly max_retries attempts (indices 0 to
max_retries minus 1) and re-raises the exception of the last attempt;
when some attempt succeeds after only failures, it returns that
attempt result having made no further attempts. -/
theorem claim_C9_retry_attempts (f : Nat → Except String α) (n : Nat)
    (hn : 1 ≤ n) :
    (∀ e, (∀ i, i < n → ∃ e', f i = .error e') → f (n - 1) = .error e →
      retry_async f n = (List.range n, .error (some e)))
    ∧ (∀ k a, k < n → (∀ i, i < k → ∃ e', f i = .error e') → f k = .ok a →
      retry_async f n = (List.range (k + 1), .ok a)) := by
  constructor
  · intro e hall hlast
    rw [List.range_eq_range']
    exact retry_go_all_error f n 0 none e (by omega)
      (fun i _ h2 => hall i (by omega)) (by rw [show 0 + n - 1 = n - 1 from by omega]; exact hlast)
  · intro k a hk hfail hok
    rw [List.range_eq_range', show k + 1 = k - 0 + 1 from by omega]
    exact retry_go_first_ok f n 0 none k a (by omega) (by omega)
      (fun i _ h2 => hfail i h2) hok

theorem claim_C9_witness :
    (retry_async (fun i => (.error (if i = 2 then "LAST" else "X") : Except String Nat)) 3 =
      ([0, 1, 2], .error (some ("LAST"))))
    ∧ (retry_async (fun i => if i = 0 then (.error ("E0") : Except String Nat) else .ok 7) 3 =
      ([0, 1], .ok 7)) := by
  constructor
  · have h := (claim_C9_retry_attempts
      (fun i => (.error (if i = 2 then "LAST" else "X") : Except String Nat)) 3
      (by omega)).1 ("LAST")
      (fun i _ => ⟨if i = 2 then "LAST" else "X", rfl⟩) rfl
    exact h.trans (by decide)
  · have h := (claim_C9_retry_attempts
      (fun i => if i = 0 then (.error ("E0") : Except String Nat) else .ok 7) 3
      (by omega)).2 1 7 (by omega)
      (fun i hi => ⟨"E0", by interval_cases i; rfl⟩) rfl
    exact h.trans (by decide)

end TeraboxSpec

namespace TeraboxSpec

set_option maxRecDepth 4000

/-- Claim C5 counterexample: normalize_url is not idempotent. The share
id of this URL is extracted by the query-parameter fallback (which
percent-agnostically returns the raw value ab?cd), the rebuilt
canonical URL re-parses to the bare id ab, and the two normalisation
passes disagree. -/
theorem claim_C5_counterexample :
    TeraboxMirrors.normalize_url ("https://terabox.com/x?surl=ab?cd") =
      "https://www.terabox.com/s/ab?cd"
    ∧ TeraboxMirrors.normalize_url
        (TeraboxMirrors.normalize_url ("https://terabox.com/x?surl=ab?cd")) =
      "https://www.terabox.com/s/ab"
    ∧ TeraboxMirrors.normalize_url
        (TeraboxMirrors.normalize_url ("https://terabox.com/x?surl=ab?cd")) ≠
      TeraboxMirrors.normalize_url ("https://terabox.com/x?surl=ab?cd") := by
  decide

/-- Claim C6 counterexample: a bare identifier string with no http(s)
scheme and no structural marker still yields a share id, through the
reverse path-segment scan of the fallback. -/
theorem claim_C6_counterexample :
    containsSubL (("http").data) (("abcdef123").data.map charLower) = false
    ∧ containsSubL (("/s/").data) (("abcdef123").data) = false
    ∧ containsSubL (("surl=").data) (("abcdef123").data) = false
    ∧ containsSubL (("shareid=").data) (("abcdef123").data) = false
    ∧ TeraboxMirrors.extract_share_id ("abcdef123") = some ("abcdef123") := by
  decide

/-- Claim C7 counterexample: the query-parameter fallback returns the
two-character id ab, and both callers proceed with it: normalize_url
rebuilds the canonical URL around it and the extract prelude accepts
it, so identifiers shorter than 4 characters are not rejected by
callers. -/
theorem claim_C7_counterexample :
    TeraboxMirrors.extract_share_id ("https://terabox.com/x?surl=ab") = some ("ab")
    ∧ (("ab").data).length < 4
    ∧ TeraboxMirrors.normalize_url ("https://terabox.com/x?surl=ab") =
      "https://www.terabox.com/s/ab"
    ∧ extract_prelude ("https://terabox.com/x?surl=ab") =
      .ok ("https://www.terabox.com/s/ab", "ab") := by
  decide

theorem patternLoop_min_length :
    ∀ (ps : List (List Char → Option (List Char))) (cs sid : List Char),
      patternLoop ps cs = some sid → 4 ≤ sid.length := by
  intro ps
  induction ps with
  | nil => intro cs sid h; cases h
  | cons p pt ih =>
    intro cs sid h
    simp only [patternLoop] at h
    cases hs : searchWith p cs with
    | none =>
      simp only [hs] at h
      exact ih cs sid h
    | some cap =>
      simp only [hs] at h
      by_cases hl : 4 ≤ cap.length
      · rw [if_pos hl] at h
        cases h
        exact hl
      · rw [if_neg hl] at h
        exact ih cs sid h

/-- Claim C7 amended: the minimum-length-4 bar is enforced inside
extract_share_id and only for the regex-pattern stage, whose captures
are always at least 4 characters; the fallback stages can return
shorter identifiers, and the callers (normalize_url and the extract
prelude) reject only a missing or empty identifier and proceed with
any non-empty one regardless of its length. -/
theorem claim_C7_amended (url : String) :
    (∀ sid : List Char, patternLoop URL_PATTERNS url.data = some sid →
      4 ≤ sid.length)
    ∧ (∀ sid : String, TeraboxMirrors.extract_share_id url = some sid →
      sid ≠ "" →
      TeraboxMirrors.normalize_url url =
        "https://www." ++ TeraboxMirrors.get_api_domain url ++ "/s/" ++ sid) := by
  constructor
  · intro sid h
    exact patternLoop_min_length URL_PATTERNS url.data sid h
  · intro sid h hne
    simp [TeraboxMirrors.normalize_url, h, hne]

theorem claim_C7_amended_witness :
    4 ≤ (("1abc123def").data).length
    ∧ TeraboxMirrors.normalize_url ("https://terabox.com/x?surl=ab") =
      "https://www." ++ TeraboxMirrors.get_api_domain ("https://terabox.com/x?surl=ab")
        ++ "/s/" ++ "ab" := by
  constructor
  · exact (claim_C7_amended ("https://www.terabox.com/s/1abc123def")).1
      (("1abc123def").data) (by decide)
  · exact (claim_C7_amended ("https://terabox.com/x?surl=ab")).2 ("ab")
      (by decide) (by decide)

end TeraboxSpec

namespace TeraboxSpec

theorem lit_none_of_not_pre :
    ∀ (p cs : List Char) (k : List Char → Option (List Char)),
      isPre (p.map charLower) (cs.map charLower) = false → lit p cs k = none := by
  intro p
  induction p with
  | nil => intro cs k h; cases h
  | cons c p' ih =>
    intro cs k h
    cases cs with
    | nil => rfl
    | cons x xs =>
      simp only [List.map_cons, isPre] at h
      by_cases hc : charLower x = charLower c
      · rw [if_pos hc] at h
        rw [lit, if_pos hc]
        exact ih xs k h
      · rw [lit, if_neg hc]

theorem schemeThen_none (cs : List Char) (k : List Char → Option (List Char))
    (h : isPre (("http").data) (cs.map charLower) = false) :
    schemeThen cs k = none := by
  apply lit_none_of_not_pre
  rw [show (("http").data).map charLower = ("http").data from by decide]
  exact h

theorem searchWith_none (m : List Char → Option (List Char)) (pl : List Char)
    (hm : ∀ cs, isPre pl (cs.map charLower) = false → m cs = none) :
    ∀ s : List Char, containsSubL pl (s.map charLower) = false →
      searchWith m s = none := by
  intro s
  induction s with
  | nil =>
    intro hs
    simp only [List.map_nil, containsSubL] at hs
    simp [searchWith, hm [] hs]
  | cons x xs ih =>
    intro hs
    simp only [List.map_cons, containsSubL] at hs
    by_cases hb : isPre pl (charLower x :: List.map charLower xs) = true
    · rw [if_pos hb] at hs
      exact absurd hs (by simp)
    · rw [if_neg hb] at hs
      have hb' : isPre pl ((x :: xs).map charLower) = false := by
        simp only [List.map_cons]
        revert hb
        cases isPre pl (charLower x :: List.map charLower xs) <;> simp
      simp [searchWith, hm (x :: xs) hb', ih hs]

theorem patternLoop_none :
    ∀ (ps : List (List Char → Option (List Char))) (cs : List Char),
      (∀ m ∈ ps, searchWith m cs = none) → patternLoop ps cs = none := by
  intro ps
  induction ps with
  | nil => intro cs _; rfl
  | cons p pt ih =>
    intro cs h
    simp only [patternLoop, h p (List.mem_cons_self _ _)]
    exact ih cs (fun m hm => h m (List.mem_cons_of_mem _ hm))

/-- Claim C6 amended: for every string with no http(s) scheme, all seven
URL patterns fail, so extract_share_id returns none provided the
three fallback stages also find nothing: no query parameter named
surl, shareid, share_id, id, fid or s with a non-empty value, no
literal s path segment followed by another segment, and no path
segment of length at least 6 made only of identifier characters. -/
theorem claim_C6_amended (s : String)
    (hh : containsSubL (("http").data) (s.data.map charLower) = false)
    (hq : fallbackParams s.data = none)
    (hsg : fallbackSSeg s.data = none)
    (hr : fallbackRevScan s.data = none) :
    TeraboxMirrors.extract_share_id s = none := by
  have hfail : ∀ (k : List Char → Option (List Char)) (cs : List Char),
      isPre (("http").data) (cs.map charLower) = false → schemeThen cs k = none :=
    fun k cs h => schemeThen_none cs k h
  have hsearch : ∀ m ∈ URL_PATTERNS, searchWith m s.data = none := by
    intro m hm
    simp only [URL_PATTERNS, List.mem_cons, List.not_mem_nil, or_false] at hm
    rcases hm with rfl | rfl | rfl | rfl | rfl | rfl | rfl <;>
      exact searchWith_none _ (("http").data) (fun cs h => hfail _ cs h) s.data hh
  have hpat : patternLoop URL_PATTERNS s.data = none :=
    patternLoop_none URL_PATTERNS s.data hsearch
  by_cases he : s.data.isEmpty
  · simp [TeraboxMirrors.extract_share_id, extractShareIdCore, he]
  · simp [TeraboxMirrors.extract_share_id, extractShareIdCore, he, hpat, hq,
      hsg, hr]

theorem claim_C6_amended_witness :
    TeraboxMirrors.extract_share_id ("not-a-terabox-link!!") = none :=
  claim_C6_amended ("not-a-terabox-link!!") (by decide) (by decide) (by decide)
    (by decide)

end TeraboxSpec

namespace TeraboxSpec

theorem isPre_iff : ∀ (n h : List Char), isPre n h = true ↔ ∃ t, h = n ++ t := by
  intro n
  induction n with
  | nil => intro h; simp [isPre]
  | cons c p ih =>
    intro h
    cases h with
    | nil => simp [isPre]
    | cons x xs =>
      simp only [isPre]
      by_cases hx : x = c
      · subst hx
        rw [if_pos rfl, ih xs]
        simp [List.cons_append, List.cons.injEq]
      · rw [if_neg hx]
        simp [List.cons_append, List.cons.injEq, hx]

theorem containsSubL_eq_true_iff :
    ∀ (n h : List Char), containsSubL n h = true ↔ ∃ p t, h = p ++ (n ++ t) := by
  intro n h
  induction h with
  | nil =>
    simp only [containsSubL, isPre_iff]
    constructor
    · rintro ⟨t, ht⟩; exact ⟨[], t, ht⟩
    · rintro ⟨p, t, ht⟩
      cases p with
      | nil => exact ⟨t, ht⟩
      | cons a as => cases ht
  | cons x xs ih =>
    simp only [containsSubL]
    by_cases hb : isPre n (x :: xs) = true
    · rw [if_pos hb]
      obtain ⟨t, ht⟩ := (isPre_iff n (x :: xs)).mp hb
      simp only [true_iff]
      exact ⟨[], t, by simpa using ht⟩
    · rw [if_neg hb, ih]
      constructor
      · rintro ⟨p, t, rfl⟩; exact ⟨x :: p, t, rfl⟩
      · rintro ⟨p, t, ht⟩
        cases p with
        | nil =>
          exfalso
          exact hb ((isPre_iff n (x :: xs)).mpr ⟨t, by simpa using ht⟩)
        | cons a as =>
          simp only [List.cons_append, List.cons.injEq] at ht
          exact ⟨as, t, ht.2⟩

theorem mem_of_containsSubL (n h : List Char) (hc : containsSubL n h = true) :
    ∀ c ∈ n, c ∈ h := by
  obtain ⟨p, t, rfl⟩ := (containsSubL_eq_true_iff n h).mp hc
  intro c hcn
  simp only [List.mem_append]
  exact Or.inr (Or.inl hcn)

theorem containsSubL_append_left (n a b : List Char)
    (h : containsSubL n a = true) : containsSubL n (a ++ b) = true := by
  rw [containsSubL_eq_true_iff] at h ⊢
  obtain ⟨p, t, rfl⟩ := h
  exact ⟨p, t ++ b, by simp⟩

theorem isPre_append_cases (n a b : List Char) (h : isPre n (a ++ b) = true) :
    (isPre n a = true)
    ∨ (a.length < n.length ∧ isPre a n = true
        ∧ isPre (n.drop a.length) b = true) := by
  obtain ⟨t, ht⟩ := (isPre_iff _ _).mp h
  by_cases hlen : n.length ≤ a.length
  · left
    rw [isPre_iff]
    refine ⟨a.drop n.length, ?_⟩
    have h3 : (a ++ b).take n.length = n := by rw [ht, List.take_left]
    have h4 : (a ++ b).take n.length = a.take n.length :=
      List.take_append_of_le_length hlen
    conv_lhs => rw [← List.take_append_drop n.length a]
    rw [← h4, h3]
  · right
    have hlt : a.length < n.length := by omega
    refine ⟨hlt, ?_, ?_⟩
    · rw [isPre_iff]
      refine ⟨n.drop a.length, ?_⟩
      have h3 : (a ++ b).take a.length = a := List.take_left a b
      have h4 : (a ++ b).take a.length = n.take a.length := by
        rw [ht]; exact List.take_append_of_le_length (le_of_lt hlt)
      have h5 : a = n.take a.length := h3.symm.trans h4
      calc n = n.take a.length ++ n.drop a.length :=
              (List.take_append_drop _ n).symm
        _ = a ++ n.drop a.length :=
              congrArg (fun l => l ++ n.drop a.length) h5.symm
    · rw [isPre_iff]
      refine ⟨t, ?_⟩
      have h6 : (a ++ b).drop a.length = b := List.drop_left a b
      have h7 : (a ++ b).drop a.length = n.drop a.length ++ t := by
        rw [ht]; exact List.drop_append_of_le_length (le_of_lt hlt)
      rw [← h6, h7]

theorem not_containsSubL_append (needle : List Char) :
    ∀ (a b : List Char),
      containsSubL needle a = false →
      boundarySplit needle a = false →
      b.all dotfree = true →
      needle.all dotfree = false →
      containsSubL needle (a ++ b) = false := by
  intro a
  induction a with
  | nil =>
    intro b _ _ hb hn
    simp only [List.nil_append]
    cases hcb : containsSubL needle b
    · rfl
    · exfalso
      have hmem := mem_of_containsSubL needle b hcb
      have hcontra : needle.all dotfree = true :=
        List.all_eq_true.mpr
          (fun c hc => List.all_eq_true.mp hb c (hmem c hc))
      rw [hcontra] at hn
      cases hn
  | cons x a' ih =>
    intro b h1 h2 hb hn
    have h1' : containsSubL needle a' = false := by
      revert h1
      simp only [containsSubL]
      by_cases hp : isPre needle (x :: a') = true
      · rw [if_pos hp]; intro h1; cases h1
      · rw [if_neg hp]; intro h1; exact h1
    have hp0 : isPre needle (x :: a') = false := by
      revert h1
      simp only [containsSubL]
      by_cases hp : isPre needle (x :: a') = true
      · rw [if_pos hp]; intro h1; cases h1
      · intro _
        revert hp
        cases isPre needle (x :: a') <;> simp
    have h2' : boundarySplit needle a' = false := by
      revert h2
      simp only [boundarySplit, tailsL, List.any_cons]
      intro h2
      exact (Bool.or_eq_false_iff.mp h2).2
    have hhead : isPre needle ((x :: a') ++ b) = false := by
      cases hph : isPre needle ((x :: a') ++ b)
      · rfl
      · exfalso
        rcases isPre_append_cases needle (x :: a') b hph with hc | ⟨hlt, hpa, hpd⟩
        · rw [hc] at hp0; cases hp0
        · have hdropall : (needle.drop (x :: a').length).all dotfree = true := by
            obtain ⟨t, ht⟩ := (isPre_iff _ _).mp hpd
            apply List.all_eq_true.mpr
            intro c hc
            apply List.all_eq_true.mp hb c
            rw [ht]
            exact List.mem_append_left _ hc
          have : boundarySplit needle (x :: a') = true := by
            simp only [boundarySplit, tailsL, List.any_cons, Bool.or_eq_true,
              Bool.and_eq_true, decide_eq_true_eq]
            exact Or.inl ⟨⟨hlt, hpa⟩, hdropall⟩
          rw [this] at h2
          cases h2
    have hhead' : isPre needle (x :: (a' ++ b)) = false := hhead
    show containsSubL needle (x :: (a' ++ b)) = false
    simp only [containsSubL, hhead']
    simp only [Bool.false_eq_true, if_false]
    exact ih b h1' h2' hb hn

end TeraboxSpec

namespace TeraboxSpec

theorem charLower_eq_dot (c : Char) (h : charLower c = '.') : c = '.' := by
  by_cases h1 : c = 'A'
  · subst h1; exact absurd h (by decide)
  by_cases h2 : c = 'B'
  · subst h2; exact absurd h (by decide)
  by_cases h3 : c = 'C'
  · subst h3; exact absurd h (by decide)
  by_cases h4 : c = 'D'
  · subst h4; exact absurd h (by decide)
  by_cases h5 : c = 'E'
  · subst h5; exact absurd h (by decide)
  by_cases h6 : c = 'F'
  · subst h6; exact absurd h (by decide)
  by_cases h7 : c = 'G'
  · subst h7; exact absurd h (by decide)
  by_cases h8 : c = 'H'
  · subst h8; exact absurd h (by decide)
  by_cases h9 : c = 'I'
  · subst h9; exact absurd h (by decide)
  by_cases h10 : c = 'J'
  · subst h10; exact absurd h (by decide)
  by_cases h11 : c = 'K'
  · subst h11; exact absurd h (by decide)
  by_cases h12 : c = 'L'
  · subst h12; exact absurd h (by decide)
  by_cases h13 : c = 'M'
  · subst h13; exact absurd h (by decide)
  by_cases h14 : c = 'N'
  · subst h14; exact absurd h (by decide)
  by_cases h15 : c = 'O'
  · subst h15; exact absurd h (by decide)
  by_cases h16 : c = 'P'
  · subst h16; exact absurd h (by decide)
  by_cases h17 : c = 'Q'
  · subst h17; exact absurd h (by decide)
  by_cases h18 : c = 'R'
  · subst h18; exact absurd h (by decide)
  by_cases h19 : c = 'S'
  · subst h19; exact absurd h (by decide)
  by_cases h20 : c = 'T'
  · subst h20; exact absurd h (by decide)
  by_cases h21 : c = 'U'
  · subst h21; exact absurd h (by decide)
  by_cases h22 : c = 'V'
  · subst h22; exact absurd h (by decide)
  by_cases h23 : c = 'W'
  · subst h23; exact absurd h (by decide)
  by_cases h24 : c = 'X'
  · subst h24; exact absurd h (by decide)
  by_cases h25 : c = 'Y'
  · subst h25; exact absurd h (by decide)
  by_cases h26 : c = 'Z'
  · subst h26; exact absurd h (by decide)
  unfold charLower at h
  rw [if_neg h1, if_neg h2, if_neg h3, if_neg h4, if_neg h5, if_neg h6, if_neg h7, if_neg h8, if_neg h9, if_neg h10, if_neg h11, if_neg h12, if_neg h13, if_neg h14, if_neg h15, if_neg h16, if_neg h17, if_neg h18, if_neg h19, if_neg h20, if_neg h21, if_neg h22, if_neg h23, if_neg h24, if_neg h25, if_neg h26] at h
  exact h

theorem charLower_dotfree (c : Char) (h : isIdChar c = true) :
    dotfree (charLower c) = true := by
  have hne : charLower c ≠ '.' :=
    fun hd => absurd ((charLower_eq_dot c hd) ▸ h) (by decide)
  simp [dotfree, hne]

theorem all_dotfree_of_idChar (t : List Char) (ht : t.all isIdChar = true) :
    (t.map charLower).all dotfree = true := by
  rw [List.all_map]
  exact List.all_eq_true.mpr (fun c hc =>
    charLower_dotfree c (List.all_eq_true.mp ht c hc))

theorem contains_canonical_false (needle a b : List Char)
    (hb : b.all dotfree = true)
    (hchk : (!containsSubL needle a && !boundarySplit needle a
      && !(needle.all dotfree)) = true) :
    containsSubL needle (a ++ b) = false := by
  simp only [Bool.and_eq_true, Bool.not_eq_true'] at hchk
  exact not_containsSubL_append needle a b hchk.1.1 hchk.1.2 hb hchk.2

theorem find?_mapping_none (a b : List Char) (hb : b.all dotfree = true)
    (hchk : TeraboxMirrors.DOMAIN_MAPPING.all (fun kv =>
      !containsSubL kv.1.data a && !boundarySplit kv.1.data a
        && !(kv.1.data.all dotfree)) = true) :
    TeraboxMirrors.DOMAIN_MAPPING.find?
      (fun kv => containsSubL kv.1.data (a ++ b)) = none := by
  rw [List.find?_eq_none]
  intro kv hkv
  intro hx
  have hx' : containsSubL kv.1.data (a ++ b) = true := hx
  rw [contains_canonical_false kv.1.data a b hb
    (List.all_eq_true.mp hchk kv hkv)] at hx'
  cases hx'

theorem apiDomain_mem (url : String) :
    TeraboxMirrors.get_api_domain url ∈ TeraboxMirrors.PRIMARY_DOMAINS := by
  simp only [TeraboxMirrors.get_api_domain, TeraboxMirrors.apiDomainCore]
  cases hf : TeraboxMirrors.DOMAIN_MAPPING.find?
      (fun kv => containsSubL kv.1.data (url.data.map charLower)) with
  | some kv =>
    show kv.2 ∈ TeraboxMirrors.PRIMARY_DOMAINS
    have hm := List.mem_of_find?_eq_some hf
    fin_cases hm <;> decide
  | none =>
    cases hp : TeraboxMirrors.PRIMARY_DOMAINS.find?
        (fun d => containsSubL d.data (url.data.map charLower)) with
    | some d => exact List.mem_of_find?_eq_some hp
    | none => decide

end TeraboxSpec

namespace TeraboxSpec

set_option maxRecDepth 8000 in
theorem matchP1_canonical (D : String)
    (hD : D ∈ TeraboxMirrors.PRIMARY_DOMAINS)
    (rest res : List Char) (hcap : capIdPlus rest = some res) :
    matchP1At (((("https://www.") ++ D ++ ("/s/")).data) ++ rest) = some res := by
  fin_cases hD <;>
    simp [matchP1At, schemeThen, optLitThen, subdomThen, litsThen,
      nameDotTldThen, lit, p1Names, p1Tlds, charLower, hcap,
      String.data_append, List.append_assoc]

end TeraboxSpec

namespace TeraboxSpec

theorem apiDomain_canonical (D : String)
    (hD : D ∈ TeraboxMirrors.PRIMARY_DOMAINS)
    (t : List Char) (ht : t.all isIdChar = true) :
    TeraboxMirrors.apiDomainCore ((("https://www.") ++ D ++ ("/s/")).data ++ t) = D := by
  have hb : (t.map charLower).all dotfree = true := all_dotfree_of_idChar t ht
  fin_cases hD
  · have hlow : (((("https://www.") ++ ("terabox.com") ++ ("/s/")).data) ++ t).map charLower
        = ((("https://www.") ++ ("terabox.com") ++ ("/s/")).data) ++ t.map charLower := by
      rw [List.map_append,
        show (((("https://www.") ++ ("terabox.com") ++ ("/s/")).data)).map charLower = ((("https://www.") ++ ("terabox.com") ++ ("/s/")).data) from by decide]
    have hT : containsSubL (("terabox.com").data)
        (((("https://www.") ++ ("terabox.com") ++ ("/s/")).data) ++ t.map charLower) = true :=
      containsSubL_append_left _ _ _ (by decide)
    have hfind : TeraboxMirrors.PRIMARY_DOMAINS.find? (fun d => containsSubL (String.data d) (((("https://www.") ++ ("terabox.com") ++ ("/s/")).data) ++ t.map charLower))
        = some ("terabox.com") := by
      rw [show TeraboxMirrors.PRIMARY_DOMAINS = ["terabox.com", "teraboxapp.com", "1024tera.com", "terabox.app", "terabox.tech", "terabox.fun"] from rfl]
      simp only [List.find?, hT]
    simp only [TeraboxMirrors.apiDomainCore, hlow]
    rw [find?_mapping_none ((("https://www.") ++ ("terabox.com") ++ ("/s/")).data) (t.map charLower) hb (by decide)]
    rw [hfind]
  · have hlow : (((("https://www.") ++ ("teraboxapp.com") ++ ("/s/")).data) ++ t).map charLower
        = ((("https://www.") ++ ("teraboxapp.com") ++ ("/s/")).data) ++ t.map charLower := by
      rw [List.map_append,
        show (((("https://www.") ++ ("teraboxapp.com") ++ ("/s/")).data)).map charLower = ((("https://www.") ++ ("teraboxapp.com") ++ ("/s/")).data) from by decide]
    have hF0 : containsSubL (("terabox.com").data)
        (((("https://www.") ++ ("teraboxapp.com") ++ ("/s/")).data) ++ t.map charLower) = false :=
      contains_canonical_false _ _ _ hb (by decide)
    have hT : containsSubL (("teraboxapp.com").data)
        (((("https://www.") ++ ("teraboxapp.com") ++ ("/s/")).data) ++ t.map charLower) = true :=
      containsSubL_append_left _ _ _ (by decide)
    have hfind : TeraboxMirrors.PRIMARY_DOMAINS.find? (fun d => containsSubL (String.data d) (((("https://www.") ++ ("teraboxapp.com") ++ ("/s/")).data) ++ t.map charLower))
        = some ("teraboxapp.com") := by
      rw [show TeraboxMirrors.PRIMARY_DOMAINS = ["terabox.com", "teraboxapp.com", "1024tera.com", "terabox.app", "terabox.tech", "terabox.fun"] from rfl]
      simp only [List.find?, hF0, hT]
    simp only [TeraboxMirrors.apiDomainCore, hlow]
    rw [find?_mapping_none ((("https://www.") ++ ("teraboxapp.com") ++ ("/s/")).data) (t.map charLower) hb (by decide)]
    rw [hfind]
  · have hlow : (((("https://www.") ++ ("1024tera.com") ++ ("/s/")).data) ++ t).map charLower
        = ((("https://www.") ++ ("1024tera.com") ++ ("/s/")).data) ++ t.map charLower := by
      rw [List.map_append,
        show (((("https://www.") ++ ("1024tera.com") ++ ("/s/")).data)).map charLower = ((("https://www.") ++ ("1024tera.com") ++ ("/s/")).data) from by decide]
    have hF0 : containsSubL (("terabox.com").data)
        (((("https://www.") ++ ("1024tera.com") ++ ("/s/")).data) ++ t.map charLower) = false :=
      contains_canonical_false _ _ _ hb (by decide)
    have hF1 : containsSubL (("teraboxapp.com").data)
        (((("https://www.") ++ ("1024tera.com") ++ ("/s/")).data) ++ t.map charLower) = false :=
      contains_canonical_false _ _ _ hb (by decide)
    have hT : containsSubL (("1024tera.com").data)
        (((("https://www.") ++ ("1024tera.com") ++ ("/s/")).data) ++ t.map charLower) = true :=
      containsSubL_append_left _ _ _ (by decide)
    have hfind : TeraboxMirrors.PRIMARY_DOMAINS.find? (fun d => containsSubL (String.data d) (((("https://www.") ++ ("1024tera.com") ++ ("/s/")).data) ++ t.map charLower))
        = some ("1024tera.com") := by
      rw [show TeraboxMirrors.PRIMARY_DOMAINS = ["terabox.com", "teraboxapp.com", "1024tera.com", "terabox.app", "terabox.tech", "terabox.fun"] from rfl]
      simp only [List.find?, hF0, hF1, hT]
    simp only [TeraboxMirrors.apiDomainCore, hlow]
    rw [find?_mapping_none ((("https://www.") ++ ("1024tera.com") ++ ("/s/")).data) (t.map charLower) hb (by decide)]
    rw [hfind]
  · have hlow : (((("https://www.") ++ ("terabox.app") ++ ("/s/")).data) ++ t).map charLower
        = ((("https://www.") ++ ("terabox.app") ++ ("/s/")).data) ++ t.map charLower := by
      rw [List.map_append,
        show (((("https://www.") ++ ("terabox.app") ++ ("/s/")).data)).map charLower = ((("https://www.") ++ ("terabox.app") ++ ("/s/")).data) from by decide]
    have hF0 : containsSubL (("terabox.com").data)
        (((("https://www.") ++ ("terabox.app") ++ ("/s/")).data) ++ t.map charLower) = false :=
      contains_canonical_false _ _ _ hb (by decide)
    have hF1 : containsSubL (("teraboxapp.com").data)
        (((("https://www.") ++ ("terabox.app") ++ ("/s/")).data) ++ t.map charLower) = false :=
      contains_canonical_false _ _ _ hb (by decide)
    have hF2 : containsSubL (("1024tera.com").data)
        (((("https://www.") ++ ("terabox.app") ++ ("/s/")).data) ++ t.map charLower) = false :=
      contains_canonical_false _ _ _ hb (by decide)
    have hT : containsSubL (("terabox.app").data)
        (((("https://www.") ++ ("terabox.app") ++ ("/s/")).data) ++ t.map charLower) = true :=
      containsSubL_append_left _ _ _ (by decide)
    have hfind : TeraboxMirrors.PRIMARY_DOMAINS.find? (fun d => containsSubL (String.data d) (((("https://www.") ++ ("terabox.app") ++ ("/s/")).data) ++ t.map charLower))
        = some ("terabox.app") := by
      rw [show TeraboxMirrors.PRIMARY_DOMAINS = ["terabox.com", "teraboxapp.com", "1024tera.com", "terabox.app", "terabox.tech", "terabox.fun"] from rfl]
      simp only [List.find?, hF0, hF1, hF2, hT]
    simp only [TeraboxMirrors.apiDomainCore, hlow]
    rw [find?_mapping_none ((("https://www.") ++ ("terabox.app") ++ ("/s/")).data) (t.map charLower) hb (by decide)]
    rw [hfind]
  · have hlow : (((("https://www.") ++ ("terabox.tech") ++ ("/s/")).data) ++ t).map charLower
        = ((("https://www.") ++ ("terabox.tech") ++ ("/s/")).data) ++ t.map charLower := by
      rw [List.map_append,
        show (((("https://www.") ++ ("terabox.tech") ++ ("/s/")).data)).map charLower = ((("https://www.") ++ ("terabox.tech") ++ ("/s/")).data) from by decide]
    have hF0 : containsSubL (("terabox.com").data)
        (((("https://www.") ++ ("terabox.tech") ++ ("/s/")).data) ++ t.map charLower) = false :=
      contains_canonical_false _ _ _ hb (by decide)
    have hF1 : containsSubL (("teraboxapp.com").data)
        (((("https://www.") ++ ("terabox.tech") ++ ("/s/")).data) ++ t.map charLower) = false :=
      contains_canonical_false _ _ _ hb (by decide)
    have hF2 : containsSubL (("1024tera.com").data)
        (((("https://www.") ++ ("terabox.tech") ++ ("/s/")).data) ++ t.map charLower) = false :=
      contains_canonical_false _ _ _ hb (by decide)
    have hF3 : containsSubL (("terabox.app").data)
        (((("https://www.") ++ ("terabox.tech") ++ ("/s/")).data) ++ t.map charLower) = false :=
      contains_canonical_false _ _ _ hb (by decide)
    have hT : containsSubL (("terabox.tech").data)
        (((("https://www.") ++ ("terabox.tech") ++ ("/s/")).data) ++ t.map charLower) = true :=
      containsSubL_append_left _ _ _ (by decide)
    have hfind : TeraboxMirrors.PRIMARY_DOMAINS.find? (fun d => containsSubL (String.data d) (((("https://www.") ++ ("terabox.tech") ++ ("/s/")).data) ++ t.map charLower))
        = some ("terabox.tech") := by
      rw [show TeraboxMirrors.PRIMARY_DOMAINS = ["terabox.com", "teraboxapp.com", "1024tera.com", "terabox.app", "terabox.tech", "terabox.fun"] from rfl]
      simp only [List.find?, hF0, hF1, hF2, hF3, hT]
    simp only [TeraboxMirrors.apiDomainCore, hlow]
    rw [find?_mapping_none ((("https://www.") ++ ("terabox.tech") ++ ("/s/")).data) (t.map charLower) hb (by decide)]
    rw [hfind]
  · have hlow : (((("https://www.") ++ ("terabox.fun") ++ ("/s/")).data) ++ t).map charLower
        = ((("https://www.") ++ ("terabox.fun") ++ ("/s/")).data) ++ t.map charLower := by
      rw [List.map_append,
        show (((("https://www.") ++ ("terabox.fun") ++ ("/s/")).data)).map charLower = ((("https://www.") ++ ("terabox.fun") ++ ("/s/")).data) from by decide]
    have hF0 : containsSubL (("terabox.com").data)
        (((("https://www.") ++ ("terabox.fun") ++ ("/s/")).data) ++ t.map charLower) = false :=
      contains_canonical_false _ _ _ hb (by decide)
    have hF1 : containsSubL (("teraboxapp.com").data)
        (((("https://www.") ++ ("terabox.fun") ++ ("/s/")).data) ++ t.map charLower) = false :=
      contains_canonical_false _ _ _ hb (by decide)
    have hF2 : containsSubL (("1024tera.com").data)
        (((("https://www.") ++ ("terabox.fun") ++ ("/s/")).data) ++ t.map charLower) = false :=
      contains_canonical_false _ _ _ hb (by decide)
    have hF3 : containsSubL (("terabox.app").data)
        (((("https://www.") ++ ("terabox.fun") ++ ("/s/")).data) ++ t.map charLower) = false :=
      contains_canonical_false _ _ _ hb (by decide)
    have hF4 : containsSubL (("terabox.tech").data)
        (((("https://www.") ++ ("terabox.fun") ++ ("/s/")).data) ++ t.map charLower) = false :=
      contains_canonical_false _ _ _ hb (by decide)
    have hT : containsSubL (("terabox.fun").data)
        (((("https://www.") ++ ("terabox.fun") ++ ("/s/")).data) ++ t.map charLower) = true :=
      containsSubL_append_left _ _ _ (by decide)
    have hfind : TeraboxMirrors.PRIMARY_DOMAINS.find? (fun d => containsSubL (String.data d) (((("https://www.") ++ ("terabox.fun") ++ ("/s/")).data) ++ t.map charLower))
        = some ("terabox.fun") := by
      rw [show TeraboxMirrors.PRIMARY_DOMAINS = ["terabox.com", "teraboxapp.com", "1024tera.com", "terabox.app", "terabox.tech", "terabox.fun"] from rfl]
      simp only [List.find?, hF0, hF1, hF2, hF3, hF4, hT]
    simp only [TeraboxMirrors.apiDomainCore, hlow]
    rw [find?_mapping_none ((("https://www.") ++ ("terabox.fun") ++ ("/s/")).data) (t.map charLower) hb (by decide)]
    rw [hfind]

end TeraboxSpec

namespace TeraboxSpec

theorem capIdPlus_of_all (t : List Char) (hne : t ≠ [])
    (hall : t.all isIdChar = true) : capIdPlus t = some t := by
  simp only [capIdPlus]
  rw [List.takeWhile_eq_self_iff.mpr (List.all_eq_true.mp hall)]
  rw [if_neg (by simp [List.isEmpty_iff, hne])]

theorem searchWith_of_head (m : List Char → Option (List Char))
    (cs r : List Char) (h : m cs = some r) : searchWith m cs = some r := by
  cases cs <;> simp [searchWith, h]

theorem patternLoop_of_first (p : List Char → Option (List Char))
    (ps : List (List Char → Option (List Char))) (cs cap : List Char)
    (h1 : searchWith p cs = some cap) (h2 : 4 ≤ cap.length) :
    patternLoop (p :: ps) cs = some cap := by
  simp [patternLoop, h1, h2]

theorem extractCore_of_pattern (cs sid : List Char) (hne : cs.isEmpty = false)
    (h : patternLoop URL_PATTERNS cs = some sid) :
    extractShareIdCore cs = some sid := by
  simp [extractShareIdCore, hne, h]

theorem extract_canonical (D : String) (hD : D ∈ TeraboxMirrors.PRIMARY_DOMAINS)
    (sid : String) (h4 : 4 ≤ sid.length) (hid : sid.data.all isIdChar = true) :
    TeraboxMirrors.extract_share_id ((("https://www.") ++ D ++ ("/s/")) ++ sid) =
      some sid := by
  have hne : sid.data ≠ [] := by
    intro h0
    rw [show sid.length = sid.data.length from rfl, h0] at h4
    exact absurd h4 (by decide)
  have hcap : capIdPlus sid.data = some sid.data := capIdPlus_of_all sid.data hne hid
  have hdata : (((("https://www.") ++ D ++ ("/s/")) ++ sid)).data
      = ((("https://www.") ++ D ++ ("/s/")).data) ++ sid.data :=
    String.data_append _ _
  have hm : matchP1At (((("https://www.") ++ D ++ ("/s/")).data) ++ sid.data) =
      some sid.data :=
    matchP1_canonical D hD sid.data sid.data hcap
  have hpl : patternLoop URL_PATTERNS
      ((("https://www.") ++ D ++ ("/s/")).data ++ sid.data) = some sid.data := by
    rw [show URL_PATTERNS = matchP1At ::
      [matchP2At, matchP3At, matchP4At, matchP5At, matchP6At, matchP7At] from rfl]
    exact patternLoop_of_first _ _ _ _ (searchWith_of_head _ _ _ hm)
      (by rw [show sid.data.length = sid.length from rfl]; exact h4)
  have hemp : ((("https://www.") ++ D ++ ("/s/")).data ++ sid.data).isEmpty = false := by
    fin_cases hD <;> rfl
  simp only [TeraboxMirrors.extract_share_id, hdata,
    extractCore_of_pattern _ _ hemp hpl, Option.map_some']

/-- Claim C5 amended: normalize_url is idempotent on every URL for which
extract_share_id either finds nothing (normalize_url is then the
identity) or returns an identifier of length at least 4 consisting
only of the characters [A-Za-z0-9_-]; an extracted identifier
containing other characters (possible only through the
query-parameter and path fallbacks) can shrink on the second pass. -/
theorem claim_C5_amended (url : String)
    (h : TeraboxMirrors.extract_share_id url = none
      ∨ ∃ sid, TeraboxMirrors.extract_share_id url = some sid
          ∧ 4 ≤ sid.length ∧ sid.data.all isIdChar = true) :
    TeraboxMirrors.normalize_url (TeraboxMirrors.normalize_url url) =
      TeraboxMirrors.normalize_url url := by
  rcases h with hnone | ⟨sid, hsome, h4, hid⟩
  · have h1 : TeraboxMirrors.normalize_url url = url := by
      simp [TeraboxMirrors.normalize_url, hnone]
    rw [h1, h1]
  · have hne : sid ≠ "" := by
      intro h0
      subst h0
      exact absurd h4 (by decide)
    have h1 : TeraboxMirrors.normalize_url url =
        (("https://www.") ++ TeraboxMirrors.get_api_domain url ++ ("/s/")) ++ sid := by
      simp [TeraboxMirrors.normalize_url, hsome, hne]
    have hD := apiDomain_mem url
    have h2 := extract_canonical (TeraboxMirrors.get_api_domain url) hD sid h4 hid
    have h3 : TeraboxMirrors.get_api_domain
        ((("https://www.") ++ TeraboxMirrors.get_api_domain url ++ ("/s/")) ++ sid) =
        TeraboxMirrors.get_api_domain url := by
      show TeraboxMirrors.apiDomainCore _ = _
      rw [String.data_append]
      exact apiDomain_canonical (TeraboxMirrors.get_api_domain url) hD sid.data hid
    rw [h1]
    simp [TeraboxMirrors.normalize_url, h2, hne, h3]

theorem claim_C5_amended_witness :
    TeraboxMirrors.normalize_url
        (TeraboxMirrors.normalize_url ("https://www.terabox.com/s/1abc123def")) =
      TeraboxMirrors.normalize_url ("https://www.terabox.com/s/1abc123def") :=
  claim_C5_amended ("https://www.terabox.com/s/1abc123def")
    (Or.inr ⟨"1abc123def", by decide, by decide, by decide⟩)

end TeraboxSpec
